import Mathlib

/-!
# Remote tagger: entity store, tier resolution and the query facade

A shallow embedding of `pkg/tagger/types/types.go`, `pkg/tagger/remote/tagstore.go`
and `pkg/tagger/remote/remote_tagger.go` (the queries, the decoding of wire messages,
`Init`, `Stop` and one pass of the receive loop of `run`).

Conventions of the embedding
* A Go `map[string]V` is an association list with pairwise distinct keys
  (`AList`).  Go leaves the iteration order of a map unspecified; the embedding
  iterates in the order of the association list, and every statement about an
  iteration is phrased so that it does not depend on that order (membership,
  length, permutation, lookup in the resulting map).
* A Go `[]string` is a `List String`; a nil slice and an empty slice are both `[]`.
* A Go `error` is an `Option String`; `none` is the nil error.
* A method with a pointer receiver that mutates the receiver returns the new
  receiver next to its Go result.
* Go `int`-based enumerations (`EventType`, `TagCardinality`) are `Int`, so that
  values outside the declared constants exist, as they do in Go.
* What the outside world answers (the dialed connection, what `Recv` returns, the
  case a `select` takes) is an argument of the function that asks for it.
-/

set_option linter.unusedVariables false

/-- The Go `error` interface: `none` is `nil`. -/
abbrev error := Option String

namespace collectors

/-- Modelled from the spec: the package `pkg/tagger/collectors` is not part of the
sources at hand.  `TagCardinality` is the integer-based ordinal enumeration of the
three cardinality tiers. -/
abbrev TagCardinality := Int

/-- Modelled from the spec: the lowest tier of the ordinal enum `Low < Orchestrator < High`. -/
def LowCardinality : TagCardinality := 0

/-- Modelled from the spec: the middle tier of the ordinal enum `Low < Orchestrator < High`. -/
def OrchestratorCardinality : TagCardinality := 1

/-- Modelled from the spec: the highest tier of the ordinal enum `Low < Orchestrator < High`. -/
def HighCardinality : TagCardinality := 2

end collectors

namespace utils

/-- Modelled from the spec: `utils.ConcatenateTags` is not part of the sources at hand.
It builds the concatenation of the given tag lists, preserving each list's internal
order and the order of the lists; no deduplication, no sorting. -/
def ConcatenateTags (slices : List (List String)) : List String :=
  slices.foldl (fun result s => result ++ s) []

end utils

namespace types

open collectors

/-- Entity is an entity ID + tags (`types.go`, `type Entity struct`). -/
structure Entity where
  ID : String
  Hash : String
  HighCardinalityTags : List String
  OrchestratorCardinalityTags : List String
  LowCardinalityTags : List String
  StandardTags : List String
deriving DecidableEq, Repr

/-- The Go zero value of `Entity`: what a map read returns for an absent key. -/
def Entity.zero : Entity :=
  { ID := "", Hash := "", HighCardinalityTags := [], OrchestratorCardinalityTags := [],
    LowCardinalityTags := [], StandardTags := [] }

/-- `func (e Entity) GetTags(cardinality collectors.TagCardinality) []string`. -/
def Entity.GetTags (e : Entity) (cardinality : TagCardinality) : List String :=
  let tagArrays : List (List String) := []
  let tagArrays := tagArrays ++ [e.LowCardinalityTags]
  let tagArrays :=
    if cardinality = OrchestratorCardinality then
      tagArrays ++ [e.OrchestratorCardinalityTags]
    else if cardinality = HighCardinality then
      (tagArrays ++ [e.OrchestratorCardinalityTags]) ++ [e.HighCardinalityTags]
    else
      tagArrays
  utils.ConcatenateTags tagArrays

/-- `type EventType int`. -/
abbrev EventType := Int

/-- EventTypeAdded means an entity was added (`iota`, 0). -/
def EventTypeAdded : EventType := 0

/-- EventTypeModified means an entity was modified (1). -/
def EventTypeModified : EventType := 1

/-- EventTypeDeleted means an entity was deleted (2). -/
def EventTypeDeleted : EventType := 2

/-- EntityEvent contains the event type and the new entity. -/
structure EntityEvent where
  EventType : EventType
  Entity : Entity
deriving DecidableEq, Repr

end types

namespace response

/-- Modelled from the spec: `response.TaggerListEntity` is not part of the sources at
hand; `Tagger.List` fills its `Tags` field with a resolved tag sequence. -/
structure TaggerListEntity where
  Tags : List String
deriving DecidableEq, Repr

/-- Modelled from the spec: `response.TaggerListResponse` is not part of the sources at
hand; its `Entities` field is a mapping from entity ID to `TaggerListEntity`. -/
structure TaggerListResponse where
  Entities : AList (fun _ : String => TaggerListEntity)

end response

namespace remote

open collectors types response

/-- `type tagStore struct { store map[string]types.Entity }`. -/
structure tagStore where
  store : AList (fun _ : String => Entity)

/-- `func newTagStore() *tagStore`. -/
def newTagStore : tagStore :=
  { store := ∅ }

/-- `func (s *tagStore) processEvent(event types.EntityEvent) error`: the store after
the call, and the returned error. -/
def tagStore.processEvent (s : tagStore) (event : EntityEvent) : tagStore × error :=
  let s :=
    if event.EventType = EventTypeAdded ∨ event.EventType = EventTypeModified then
      { s with store := s.store.insert event.Entity.ID event.Entity }
    else if event.EventType = EventTypeDeleted then
      { s with store := s.store.erase event.Entity.ID }
    else
      s
  (s, none)

/-- `func (s *tagStore) getEntity(entityID string) (types.Entity, error)`: a map read,
which yields the zero value for an absent key. -/
def tagStore.getEntity (s : tagStore) (entityID : String) : Entity × error :=
  ((s.store.lookup entityID).getD Entity.zero, none)

/-- `func (s *tagStore) listEntities() []types.Entity`. -/
def tagStore.listEntities (s : tagStore) : List Entity :=
  let entities : List Entity := []
  s.store.entries.foldl (fun entities kv => entities ++ [kv.2]) entities

/-- `len(s.store)`: the number of records of the store. -/
def tagStore.size (s : tagStore) : Nat :=
  s.store.entries.length

/-- The query half of `type Tagger struct`: the store the queries read. -/
structure Tagger where
  store : tagStore

/-- `func NewTagger() *Tagger`. -/
def NewTagger : Tagger :=
  { store := newTagStore }

/-- `func (t *Tagger) Tag(entityID string, cardinality collectors.TagCardinality) ([]string, error)`. -/
def Tagger.Tag (t : Tagger) (entityID : String) (cardinality : TagCardinality) :
    List String × error :=
  match t.store.getEntity entityID with
  | (entity, none) => (entity.GetTags cardinality, none)
  | (_, some err) => ([], some err)

/-- `func (t *Tagger) Standard(entityID string) ([]string, error)`. -/
def Tagger.Standard (t : Tagger) (entityID : String) : List String × error :=
  match t.store.getEntity entityID with
  | (entity, none) => (entity.StandardTags, none)
  | (_, some err) => ([], some err)

/-- `func (t *Tagger) List(cardinality collectors.TagCardinality) response.TaggerListResponse`. -/
def Tagger.List (t : Tagger) (cardinality : TagCardinality) : TaggerListResponse :=
  let entities := t.store.listEntities
  let resp : TaggerListResponse := { Entities := ∅ }
  entities.foldl
    (fun resp e =>
      { resp with Entities := resp.Entities.insert e.ID { Tags := e.GetTags HighCardinality } })
    resp

/-- The keys of the store are the IDs of the entities they bind: the shape of every
store that `newTagStore` and `processEvent` build. -/
def tagStore.WellKeyed (s : tagStore) : Prop :=
  ∀ (k : String) (e : Entity), s.store.lookup k = some e → e.ID = k

/-- The store after a sequence of events was applied in order with `processEvent`,
as the receive loop of `Tagger.run` does (one `processEvent` per received message). -/
def applyEvents (s : tagStore) (events : List EntityEvent) : tagStore :=
  events.foldl (fun s event => (s.processEvent event).1) s

/-- The last event of a sequence whose entity ID is `x`, if any event mentions `x`. -/
def lastEventFor (x : String) (events : List EntityEvent) : Option EntityEvent :=
  (events.filter (fun ev => decide (ev.Entity.ID = x))).getLast?

/-- The Added event carrying the entity `e`. -/
def addedEvent (e : Entity) : EntityEvent :=
  { EventType := EventTypeAdded, Entity := e }

end remote

namespace pb

/-- Modelled from the spec: the generated package `cmd/agent/api/pb` is not part of
the sources at hand.  The type of a wire message is an integer-based enumeration with
the values ADDED, MODIFIED and DELETED; other integers can arrive from a newer peer. -/
abbrev EventType := Int

/-- Modelled from the spec: the wire type `Added`. -/
def EventType_ADDED : EventType := 0

/-- Modelled from the spec: the wire type `Modified`. -/
def EventType_MODIFIED : EventType := 1

/-- Modelled from the spec: the wire type `Deleted`. -/
def EventType_DELETED : EventType := 2

/-- Modelled from the spec: the wire entity id `{prefix, uid}`. -/
structure EntityId where
  Prefix : String
  Uid : String
deriving DecidableEq, Repr

/-- Modelled from the spec: the wire entity `{id, hash, high_cardinality_tags[],
orchestrator_cardinality_tags[], low_cardinality_tags[], standard_tags[]}`; `Id` is a
pointer, `none` when nil. -/
structure Entity where
  Id : Option EntityId
  Hash : String
  HighCardinalityTags : List String
  OrchestratorCardinalityTags : List String
  LowCardinalityTags : List String
  StandardTags : List String
deriving DecidableEq, Repr

/-- Modelled from the spec: one message of the stream, `{type, entity}`; `Entity` is a
pointer, `none` when nil.  The field `Type` is written `Type_`. -/
structure StreamTagsResponse where
  Type_ : EventType
  Entity : Option Entity
deriving DecidableEq, Repr

end pb

namespace remote

open collectors types response

/-- `func convertEventType(t pb.EventType) types.EventType`. -/
def convertEventType (t : pb.EventType) : types.EventType :=
  if t = pb.EventType_ADDED then EventTypeAdded
  else if t = pb.EventType_MODIFIED then EventTypeModified
  else if t = pb.EventType_DELETED then EventTypeDeleted
  else EventTypeAdded

/-- `func convertEntityID(id *pb.EntityId) string`, that is
`fmt.Sprintf("%s://%s", id.Prefix, id.Uid)`; reading a field of a nil `id` panics
(`none`). -/
def convertEntityID (id : Option pb.EntityId) : Option String :=
  match id with
  | none => none
  | some id => some (id.Prefix ++ "://" ++ id.Uid)

/-- The `types.EntityEvent` literal that `Tagger.run` builds from a received message
(`remote_tagger.go`, lines 167-177); `none` when a nil pointer is dereferenced on the
way (`response.Entity`, or the id inside `convertEntityID`). -/
def decodeResponse (resp : pb.StreamTagsResponse) : Option EntityEvent :=
  match resp.Entity with
  | none => none
  | some ent =>
    match convertEntityID ent.Id with
    | none => none
    | some id =>
      some
        { EventType := convertEventType resp.Type_,
          Entity :=
            { ID := id,
              Hash := ent.Hash,
              HighCardinalityTags := ent.HighCardinalityTags,
              OrchestratorCardinalityTags := ent.OrchestratorCardinalityTags,
              LowCardinalityTags := ent.LowCardinalityTags,
              StandardTags := ent.StandardTags } }

/-- The whole of `type Tagger struct`: the query half together with the connection
fields.  Connections, clients and streams are named by numbers, a nil pointer or
interface is `none`; `ctx` is `none` before `Init` and `some cancelled` afterwards;
`health` tells whether the liveness handle is registered. -/
structure TaggerState extends Tagger where
  conn : Option Nat
  client : Option Nat
  stream : Option Nat
  ctx : Option Bool
  health : Bool

/-- `func NewTagger() *Tagger`, with every field: only `store` is set. -/
def NewTaggerState : TaggerState :=
  { toTagger := NewTagger, conn := none, client := none, stream := none, ctx := none,
    health := false }

/-- `func (t *Tagger) Init() error`.  `dial` is what `grpc.DialContext` returns (the
connection and the error).  The client made by `pb.NewAgentSecureClient(conn)` is named
after its connection.  `go t.run()` starts the receive loop and is not part of the
returned state. -/
def TaggerState.Init (t : TaggerState) (dial : Option Nat × error) : TaggerState × error :=
  let t := { t with health := true }
  let t := { t with ctx := some false }
  match dial with
  | (_, some err) => (t, some err)
  | (conn, none) =>
    let t := { t with client := conn }
    (t, none)

/-- The value of the panic of the Go runtime on a nil pointer or nil interface. -/
def nilDereference : String :=
  "runtime error: invalid memory address or nil pointer dereference"

/-- How one call of `Stop` ends: it returns, with the state afterwards, the connection
on which `Close` was called and the returned error; or it panics with the given value
and never returns. -/
inductive StopResult where
  | returned (state : TaggerState) (closed : Nat) (err : error)
  | panicked (value : String)

/-- `func (t *Tagger) Stop() error`.  `close` is what `Close` returns on a live
connection.  Before `Init` the field `cancel` is nil and calling it panics; after
`t.cancel()`, `t.conn.Close()` on a nil `t.conn` dereferences the nil `*grpc.ClientConn`
and panics. -/
def TaggerState.Stop (t : TaggerState) (close : error) : StopResult :=
  match t.ctx with
  | none => StopResult.panicked nilDereference
  | some _ =>
    let t := { t with ctx := some true }
    match t.conn with
    | none => StopResult.panicked nilDereference
    | some conn =>
      match close with
      | some err => StopResult.returned t conn (some err)
      | none => StopResult.returned t conn none

/-- `func (t *Tagger) startTaggerStream() error`.  `done` tells whether `t.ctx.Done()`
is ready, `rpc` is what `t.client.TaggerStreamEntities` returns (the stream and the
error).  Calling the method on a nil `t.client` panics (`none`). -/
def TaggerState.startTaggerStream (t : TaggerState) (done : Bool)
    (rpc : Option Nat × error) : Option (TaggerState × error) :=
  if done then some (t, none)
  else
    match t.client with
    | none => none
    | some _ => some ({ t with stream := rpc.1 }, rpc.2)

/-- The case that the `select` at the head of the receive loop takes. -/
inductive SelectCase where
  | health
  | done
  | default
deriving DecidableEq, Repr

/-- What `t.stream.Recv()` returns: a message with a nil error, `io.EOF`, or another
error. -/
inductive RecvResult where
  | message (resp : pb.StreamTagsResponse)
  | eof
  | failed (err : String)
deriving DecidableEq, Repr

/-- How one pass through the body of the `for` loop of `run` ends: the loop goes on to
the next receive with the given state, `run` returns, or the goroutine panics with the
given value. -/
inductive IterationResult where
  | next (t : TaggerState)
  | returned
  | panicked (value : String)

/-- `fmt.Sprintf("whoops: %s", err)`; a nil `err` prints as `%!s(<nil>)`. -/
def whoops (err : error) : String :=
  match err with
  | none => "whoops: %!s(<nil>)"
  | some e => "whoops: " ++ e

/-- One pass through the body of the `for` loop of `func (t *Tagger) run()`.
`sel` is the case taken by the `select`, `recv` what `Recv` returns, and `done`, `rpc`
are the inputs of the `startTaggerStream` call made on `io.EOF`.  Calling `Recv` on a
nil `t.stream` panics. -/
def TaggerState.runIteration (t : TaggerState) (sel : SelectCase) (recv : RecvResult)
    (done : Bool) (rpc : Option Nat × error) : IterationResult :=
  match sel with
  | SelectCase.done => IterationResult.returned
  | _ =>
    match t.stream with
    | none => IterationResult.panicked nilDereference
    | some _ =>
      match recv with
      | RecvResult.eof =>
        match t.startTaggerStream done rpc with
        | none => IterationResult.panicked nilDereference
        | some (_, err) => IterationResult.panicked (whoops err)
      | RecvResult.failed err => IterationResult.panicked (whoops (some err))
      | RecvResult.message resp =>
        match decodeResponse resp with
        | none => IterationResult.panicked nilDereference
        | some event =>
          match t.store.processEvent event with
          | (s, none) => IterationResult.next { t with store := s }
          | (_, some err) => IterationResult.panicked (whoops (some err))

end remote

/-- Modelled from the spec: `computeTagsHash` is not part of the sources at hand (only
its test is).  The tags are sorted lexicographically and the sorted sequence is hashed;
`digest` is the fixed-size digest function, which the spec leaves open. -/
def computeTagsHash (digest : List String → String) (tags : List String) : String :=
  digest (tags.insertionSort (fun a b => a ≤ b))

/-! ## Shared facts about the embedding -/

namespace utils

theorem foldl_append_eq_flatten (slices : List (List String)) (acc : List String) :
    slices.foldl (fun result s => result ++ s) acc = acc ++ slices.flatten := by
  induction slices generalizing acc with
  | nil => simp
  | cons s slices ih => simp [ih]

/-- `ConcatenateTags` is list flattening. -/
theorem ConcatenateTags_eq_flatten (slices : List (List String)) :
    ConcatenateTags slices = slices.flatten := by
  simp [ConcatenateTags, foldl_append_eq_flatten]

end utils

namespace types

open collectors

theorem Entity.GetTags_low (e : Entity) :
    e.GetTags LowCardinality = e.LowCardinalityTags := by
  simp [Entity.GetTags, utils.ConcatenateTags, LowCardinality, OrchestratorCardinality,
    HighCardinality]

theorem Entity.GetTags_orchestrator (e : Entity) :
    e.GetTags OrchestratorCardinality
      = e.LowCardinalityTags ++ e.OrchestratorCardinalityTags := by
  simp [Entity.GetTags, utils.ConcatenateTags]

theorem Entity.GetTags_high (e : Entity) :
    e.GetTags HighCardinality
      = e.LowCardinalityTags ++ e.OrchestratorCardinalityTags ++ e.HighCardinalityTags := by
  simp [Entity.GetTags, utils.ConcatenateTags, OrchestratorCardinality, HighCardinality]

end types

namespace remote

open collectors types response

theorem tagStore.processEvent_upsert (s : tagStore) (t : EventType) (e : Entity)
    (ht : t = EventTypeAdded ∨ t = EventTypeModified) :
    (s.processEvent ⟨t, e⟩).1.store = s.store.insert e.ID e := by
  simp [tagStore.processEvent, ht]

theorem tagStore.processEvent_deleted (s : tagStore) (e : Entity) :
    (s.processEvent ⟨EventTypeDeleted, e⟩).1.store = s.store.erase e.ID := by
  simp [tagStore.processEvent, EventTypeAdded, EventTypeModified, EventTypeDeleted]

theorem tagStore.processEvent_other (s : tagStore) (t : EventType) (e : Entity)
    (h0 : t ≠ EventTypeAdded) (h1 : t ≠ EventTypeModified) (h2 : t ≠ EventTypeDeleted) :
    (s.processEvent ⟨t, e⟩).1 = s := by
  simp [tagStore.processEvent, h0, h1, h2]

theorem tagStore.getEntity_of_lookup_some (s : tagStore) (k : String) (e : Entity)
    (h : s.store.lookup k = some e) : s.getEntity k = (e, none) := by
  simp [tagStore.getEntity, h]

theorem tagStore.getEntity_of_lookup_none (s : tagStore) (k : String)
    (h : s.store.lookup k = none) : s.getEntity k = (Entity.zero, none) := by
  simp [tagStore.getEntity, h]

theorem tagStore.getEntity_processEvent_upsert (s : tagStore) (t : EventType) (e : Entity)
    (ht : t = EventTypeAdded ∨ t = EventTypeModified) :
    (s.processEvent ⟨t, e⟩).1.getEntity e.ID = (e, none) := by
  apply tagStore.getEntity_of_lookup_some
  rw [tagStore.processEvent_upsert s t e ht]
  exact AList.lookup_insert s.store

theorem foldl_snoc_eq_map {α β : Type} (f : α → β) (l : List α) (acc : List β) :
    l.foldl (fun acc a => acc ++ [f a]) acc = acc ++ l.map f := by
  induction l generalizing acc with
  | nil => simp
  | cons a l ih => simp [ih]

theorem tagStore.listEntities_eq_map (s : tagStore) :
    s.listEntities = s.store.entries.map (fun kv => kv.2) := by
  simp [tagStore.listEntities, foldl_snoc_eq_map]

theorem erase_insert_same (m : AList (fun _ : String => Entity)) (k : String) (e : Entity) :
    (m.insert k e).erase k = m.erase k := by
  apply AList.ext
  simp [AList.insert, AList.erase, List.kinsert]

theorem tagStore.mem_listEntities_iff (s : tagStore) (x : Entity) :
    x ∈ s.listEntities ↔ ∃ k, s.store.lookup k = some x := by
  rw [tagStore.listEntities_eq_map]
  constructor
  · intro h
    obtain ⟨kv, hkv, rfl⟩ := List.mem_map.1 h
    exact ⟨kv.1, AList.mem_lookup_iff.2 hkv⟩
  · rintro ⟨k, hk⟩
    exact List.mem_map.2 ⟨⟨k, x⟩, AList.mem_lookup_iff.1 hk, rfl⟩

theorem tagStore.wellKeyed_new : newTagStore.WellKeyed := by
  intro k e h
  simp [newTagStore] at h

theorem tagStore.wellKeyed_processEvent (s : tagStore) (ev : EntityEvent)
    (hs : s.WellKeyed) : (s.processEvent ev).1.WellKeyed := by
  intro k e h
  unfold tagStore.processEvent at h
  by_cases h01 : ev.EventType = EventTypeAdded ∨ ev.EventType = EventTypeModified
  · simp only [h01, if_true] at h
    by_cases hk : k = ev.Entity.ID
    · subst hk
      rw [AList.lookup_insert] at h
      exact (Option.some.inj h) ▸ rfl
    · rw [AList.lookup_insert_ne hk] at h
      exact hs k e h
  · simp only [h01, if_false] at h
    by_cases h2 : ev.EventType = EventTypeDeleted
    · simp only [h2, if_true] at h
      by_cases hk : k = ev.Entity.ID
      · subst hk
        rw [AList.lookup_erase] at h
        exact absurd h (by simp)
      · rw [AList.lookup_erase_ne hk] at h
        exact hs k e h
    · simp only [h2, if_false] at h
      exact hs k e h

theorem tagStore.wellKeyed_applyEvents (events : List EntityEvent) (s : tagStore)
    (hs : s.WellKeyed) : (applyEvents s events).WellKeyed := by
  induction events generalizing s with
  | nil => exact hs
  | cons ev events ih =>
    exact ih _ (tagStore.wellKeyed_processEvent s ev hs)

theorem tagStore.lookup_processEvent_of_ne (s : tagStore) (ev : EntityEvent) (x : String)
    (hx : x ≠ ev.Entity.ID) :
    (s.processEvent ev).1.store.lookup x = s.store.lookup x := by
  unfold tagStore.processEvent
  by_cases h01 : ev.EventType = EventTypeAdded ∨ ev.EventType = EventTypeModified
  · simp only [h01, if_true]
    exact AList.lookup_insert_ne hx
  · simp only [h01, if_false]
    by_cases h2 : ev.EventType = EventTypeDeleted
    · simp only [h2, if_true]
      exact AList.lookup_erase_ne hx
    · simp only [h2, if_false]

theorem applyEvents_append (s : tagStore) (l₁ l₂ : List EntityEvent) :
    applyEvents s (l₁ ++ l₂) = applyEvents (applyEvents s l₁) l₂ := by
  simp [applyEvents, List.foldl_append]

theorem applyEvents_snoc (s : tagStore) (l : List EntityEvent) (ev : EntityEvent) :
    applyEvents s (l ++ [ev]) = ((applyEvents s l).processEvent ev).1 := by
  simp [applyEvents, List.foldl_append]

theorem lastEventFor_snoc_eq (x : String) (l : List EntityEvent) (ev : EntityEvent)
    (h : ev.Entity.ID = x) : lastEventFor x (l ++ [ev]) = some ev := by
  simp [lastEventFor, List.filter_append, h]

theorem lastEventFor_snoc_ne (x : String) (l : List EntityEvent) (ev : EntityEvent)
    (h : ev.Entity.ID ≠ x) : lastEventFor x (l ++ [ev]) = lastEventFor x l := by
  simp [lastEventFor, List.filter_append, h]

/-- Inserting entities with pairwise distinct fresh keys stacks them in front of the
association list. -/
theorem foldl_insert_entries {β : Type} (f : Entity → β) (l : List Entity)
    (m : AList (fun _ : String => β)) (hnd : (l.map Entity.ID).Nodup)
    (hfresh : ∀ e ∈ l, e.ID ∉ m) :
    (l.foldl (fun m e => m.insert e.ID (f e)) m).entries
      = l.reverse.map (fun e => (⟨e.ID, f e⟩ : Sigma fun _ : String => β)) ++ m.entries := by
  induction l generalizing m with
  | nil => simp
  | cons e l ih =>
    rw [List.map_cons, List.nodup_cons] at hnd
    have hfresh' : ∀ e' ∈ l, e'.ID ∉ m.insert e.ID (f e) := by
      intro e' he' hmem
      rcases (AList.mem_insert m).1 hmem with h | h
      · exact hnd.1 (h ▸ List.mem_map_of_mem Entity.ID he')
      · exact hfresh e' (List.mem_cons_of_mem _ he') h
    rw [List.foldl_cons, ih _ hnd.2 hfresh',
      AList.insert_entries_of_neg (hfresh e (List.mem_cons_self _ _))]
    simp

theorem applyEvents_added_store (es : List Entity) (s : tagStore) :
    (applyEvents s (es.map addedEvent)).store
      = es.foldl (fun m e => m.insert e.ID e) s.store := by
  induction es generalizing s with
  | nil => rfl
  | cons e es ih =>
    rw [List.map_cons, List.foldl_cons]
    show (applyEvents (s.processEvent (addedEvent e)).1 (es.map addedEvent)).store = _
    rw [ih, addedEvent, tagStore.processEvent_upsert s _ e (Or.inl rfl)]

theorem Tagger.List_entities (t : Tagger) (cardinality : TagCardinality) :
    (t.List cardinality).Entities
      = t.store.listEntities.foldl
          (fun m e => m.insert e.ID (TaggerListEntity.mk (e.GetTags HighCardinality))) ∅ := by
  unfold Tagger.List
  generalize (∅ : AList (fun _ : String => TaggerListEntity)) = m
  induction t.store.listEntities generalizing m with
  | nil => rfl
  | cons e l ih => exact ih _

theorem tagStore.eq_of_store_eq (a b : tagStore) (h : a.store = b.store) : a = b := by
  cases a
  cases b
  exact congrArg tagStore.mk h

theorem convertEventType_unknown (t : pb.EventType) (h0 : t ≠ pb.EventType_ADDED)
    (h1 : t ≠ pb.EventType_MODIFIED) (h2 : t ≠ pb.EventType_DELETED) :
    convertEventType t = EventTypeAdded := by
  simp [convertEventType, h0, h1, h2]

theorem convertEventType_deleted : convertEventType pb.EventType_DELETED = EventTypeDeleted := by
  decide

theorem convertEventType_upsert_of_ne_deleted (t : pb.EventType)
    (h : t ≠ pb.EventType_DELETED) :
    convertEventType t = EventTypeAdded ∨ convertEventType t = EventTypeModified := by
  unfold convertEventType
  split_ifs
  · exact Or.inl rfl
  · exact Or.inr rfl
  · exact Or.inl rfl

theorem erase_erase_same (m : AList (fun _ : String => Entity)) (k : String) :
    (m.erase k).erase k = m.erase k := by
  apply AList.ext
  have hk : k ∉ (m.erase k).entries.keys := by
    intro h
    have h' := (AList.mem_erase (s := m)).1 (AList.mem_keys.2 h)
    exact h'.1 rfl
  exact List.kerase_of_not_mem_keys hk

theorem decodeResponse_of_some (resp : pb.StreamTagsResponse) (ent : pb.Entity)
    (id : pb.EntityId) (hent : resp.Entity = some ent) (hid : ent.Id = some id) :
    decodeResponse resp
      = some
          { EventType := convertEventType resp.Type_,
            Entity :=
              { ID := id.Prefix ++ "://" ++ id.Uid,
                Hash := ent.Hash,
                HighCardinalityTags := ent.HighCardinalityTags,
                OrchestratorCardinalityTags := ent.OrchestratorCardinalityTags,
                LowCardinalityTags := ent.LowCardinalityTags,
                StandardTags := ent.StandardTags } } := by
  simp [decodeResponse, convertEntityID, hent, hid]

theorem TaggerState.runIteration_message (t : TaggerState) (sel : SelectCase)
    (resp : pb.StreamTagsResponse) (ev : EntityEvent) (done : Bool)
    (rpc : Option Nat × error) (cur : Nat) (hsel : sel ≠ SelectCase.done)
    (hcur : t.stream = some cur) (hdec : decodeResponse resp = some ev) :
    t.runIteration sel (RecvResult.message resp) done rpc
      = IterationResult.next { t with store := (t.store.processEvent ev).1 } := by
  cases sel with
  | done => exact absurd rfl hsel
  | health => simp [TaggerState.runIteration, hcur, hdec, tagStore.processEvent]
  | default => simp [TaggerState.runIteration, hcur, hdec, tagStore.processEvent]

/-- A list that continues `://` after a leftover piece `a'` of a longer left part:
the piece is empty when the longer left part holds no `://`. -/
theorem separator_align (a a' b d : List Char)
    (hc : ¬ [':', '/', '/'] <:+: a ++ a')
    (hb : [':', '/', '/'] ++ b = a' ++ ([':', '/', '/'] ++ d)) : a' = [] ∧ b = d := by
  rcases a' with _ | ⟨x, _ | ⟨y, _ | ⟨z, rest⟩⟩⟩
  · exact ⟨rfl, by simpa using hb⟩
  · simp at hb
  · simp at hb
  · exfalso
    apply hc
    simp only [List.cons_append, List.nil_append, List.cons.injEq] at hb
    obtain ⟨hx, hy, hz, -⟩ := hb
    subst hx hy hz
    exact ⟨a, rest, by simp⟩

/-- Two lists split at `://` with left parts free of `://` split at the same place. -/
theorem separator_cancel (a b c d : List Char)
    (ha : ¬ [':', '/', '/'] <:+: a) (hc : ¬ [':', '/', '/'] <:+: c)
    (h : a ++ ([':', '/', '/'] ++ b) = c ++ ([':', '/', '/'] ++ d)) : a = c ∧ b = d := by
  rcases List.append_eq_append_iff.1 h with ⟨a', hca, hb⟩ | ⟨c', hac, hd⟩
  · subst hca
    obtain ⟨ha', hbd⟩ := separator_align a a' b d hc hb
    subst ha'
    exact ⟨by simp, hbd⟩
  · subst hac
    obtain ⟨hc', hdb⟩ := separator_align c c' d b ha hd
    subst hc'
    exact ⟨by simp, hdb.symm⟩

theorem convertEntityID_some_inj (id1 id2 : pb.EntityId)
    (h1 : ¬ "://".toList <:+: id1.Prefix.toList)
    (h2 : ¬ "://".toList <:+: id2.Prefix.toList)
    (h : convertEntityID (some id1) = convertEntityID (some id2)) : id1 = id2 := by
  obtain ⟨p1, u1⟩ := id1
  obtain ⟨p2, u2⟩ := id2
  simp only [convertEntityID, Option.some.injEq] at h
  have hl := congrArg String.toList h
  simp only [String.toList, String.data_append, List.append_assoc] at hl
  obtain ⟨hp, hu⟩ := separator_cancel p1.data u1.data p2.data u2.data h1 h2 hl
  have hp' : p1 = p2 := String.ext hp
  have hu' : u1 = u2 := String.ext hu
  rw [hp', hu']

theorem sorted_tags_of_perm (tags tags' : List String) (h : tags.Perm tags') :
    tags.insertionSort (fun a b => a ≤ b) = tags'.insertionSort (fun a b => a ≤ b) := by
  apply List.eq_of_perm_of_sorted (r := fun a b : String => a ≤ b)
  · exact (List.perm_insertionSort _ tags).trans (h.trans (List.perm_insertionSort _ tags').symm)
  · exact List.sorted_insertionSort _ tags
  · exact List.sorted_insertionSort _ tags'

end remote

/-! ## The claims -/

namespace remote

open collectors types response

/-- C1. Apply/Get round trip: for every store `s` and every entity `e`, after
`processEvent` with an event of type Added or Modified carrying `e`, `getEntity e.ID`
returns exactly `e` with a nil error, whether or not `s` already held a record for
`e.ID`. -/
theorem processEvent_getEntity_round_trip (s : tagStore) (e : Entity) (t : EventType)
    (ht : t = EventTypeAdded ∨ t = EventTypeModified) :
    (s.processEvent ⟨t, e⟩).1.getEntity e.ID = (e, none) := by
  apply tagStore.getEntity_of_lookup_some
  rw [tagStore.processEvent_upsert s t e ht]
  exact AList.lookup_insert s.store

/-- Witness of C1: a Modified event on a store that already holds another version of
the same ID. -/
theorem processEvent_getEntity_round_trip_witness :
    (EventTypeModified = EventTypeAdded ∨ EventTypeModified = EventTypeModified) ∧
    (((newTagStore.processEvent
          ⟨EventTypeAdded, ⟨"container://abc", "h0", [], [], ["env:prod"], []⟩⟩).1.processEvent
        ⟨EventTypeModified,
          ⟨"container://abc", "h1", ["container_id:abc"], ["pod_name:x"], ["env:staging"],
            ["service:web"]⟩⟩).1.getEntity "container://abc"
      = (⟨"container://abc", "h1", ["container_id:abc"], ["pod_name:x"], ["env:staging"],
            ["service:web"]⟩, none)) :=
  ⟨Or.inr rfl,
    processEvent_getEntity_round_trip
      (newTagStore.processEvent
        ⟨EventTypeAdded, ⟨"container://abc", "h0", [], [], ["env:prod"], []⟩⟩).1
      ⟨"container://abc", "h1", ["container_id:abc"], ["pod_name:x"], ["env:staging"],
        ["service:web"]⟩
      EventTypeModified (Or.inr rfl)⟩

/-- C2. Replace semantics: for every store and all entities `e1`, `e2` with
`e2.ID = e1.ID`, `processEvent(Added, e1)` followed by `processEvent(Modified, e2)` makes
`getEntity e1.ID` return exactly `e2`; nothing of `e1` is kept: the resulting store is
the one obtained by applying the Modified event alone. -/
theorem processEvent_added_modified_replaces (s : tagStore) (e1 e2 : Entity)
    (hid : e2.ID = e1.ID) :
    (((s.processEvent ⟨EventTypeAdded, e1⟩).1.processEvent
        ⟨EventTypeModified, e2⟩).1.getEntity e1.ID = (e2, none)) ∧
    ((s.processEvent ⟨EventTypeAdded, e1⟩).1.processEvent ⟨EventTypeModified, e2⟩).1.store
      = (s.processEvent ⟨EventTypeModified, e2⟩).1.store := by
  constructor
  · rw [← hid]
    exact tagStore.getEntity_processEvent_upsert _ EventTypeModified e2 (Or.inr rfl)
  · rw [tagStore.processEvent_upsert _ EventTypeModified e2 (Or.inr rfl),
      tagStore.processEvent_upsert _ EventTypeAdded e1 (Or.inl rfl),
      tagStore.processEvent_upsert _ EventTypeModified e2 (Or.inr rfl), hid]
    exact AList.insert_insert s.store

/-- Witness of C2: every field of the first version differs from the second. -/
theorem processEvent_added_modified_replaces_witness :
    ((⟨"container://abc", "h2", ["c"], ["b"], ["env:staging"], ["s2"]⟩ : Entity).ID
      = (⟨"container://abc", "h1", ["container_id:abc"], ["pod_name:x"], ["env:prod"],
          ["s1"]⟩ : Entity).ID) ∧
    (((newTagStore.processEvent
          ⟨EventTypeAdded, ⟨"container://abc", "h1", ["container_id:abc"], ["pod_name:x"],
            ["env:prod"], ["s1"]⟩⟩).1.processEvent
        ⟨EventTypeModified,
          ⟨"container://abc", "h2", ["c"], ["b"], ["env:staging"], ["s2"]⟩⟩).1.getEntity
        "container://abc"
      = (⟨"container://abc", "h2", ["c"], ["b"], ["env:staging"], ["s2"]⟩, none)) :=
  ⟨rfl,
    (processEvent_added_modified_replaces newTagStore
      ⟨"container://abc", "h1", ["container_id:abc"], ["pod_name:x"], ["env:prod"], ["s1"]⟩
      ⟨"container://abc", "h2", ["c"], ["b"], ["env:staging"], ["s2"]⟩ rfl).1⟩

/-- C3, as the claim states it, fails: on a store without a record for the ID (never
added, or added and then deleted) `getEntity`, `Tagger.Tag` and `Tagger.Standard` return
a nil error together with the zero-value entity and empty tag lists. -/
theorem getEntity_miss_signals_no_error :
    newTagStore.store.lookup "container://abc" = none ∧
    newTagStore.getEntity "container://abc" = (Entity.zero, none) ∧
    (NewTagger.Tag "container://abc" HighCardinality) = ([], none) ∧
    NewTagger.Standard "container://abc" = ([], none) ∧
    ((newTagStore.processEvent
        ⟨EventTypeAdded, ⟨"container://abc", "h", ["c"], ["b"], ["a"], ["s"]⟩⟩).1.processEvent
      ⟨EventTypeDeleted, ⟨"container://abc", "h", ["c"], ["b"], ["a"], ["s"]⟩⟩).1.getEntity
        "container://abc" = (Entity.zero, none) := by
  decide

/-- C3, amended. For every store and every entity ID that has no record in the store,
`getEntity` returns the zero-value entity with a nil error, and therefore `Tagger.Tag`
(at every cardinality) and `Tagger.Standard` return an empty tag list with a nil error:
a miss is not signalled. -/
theorem getEntity_miss_zero_value (t : Tagger) (entityID : String)
    (cardinality : TagCardinality) (hmiss : t.store.store.lookup entityID = none) :
    t.store.getEntity entityID = (Entity.zero, none) ∧
    t.Tag entityID cardinality = ([], none) ∧
    t.Standard entityID = ([], none) := by
  have hget := tagStore.getEntity_of_lookup_none t.store entityID hmiss
  refine ⟨hget, ?_, ?_⟩
  · simp only [Tagger.Tag, hget, Entity.GetTags]
    split_ifs <;> rfl
  · simp only [Tagger.Standard, hget]
    rfl

/-- Witness of the amended C3: an ID that was added and then deleted. -/
theorem getEntity_miss_zero_value_witness :
    (Tagger.mk ((newTagStore.processEvent
        ⟨EventTypeAdded, ⟨"pod://p1", "h", ["c"], ["b"], ["a"], ["s"]⟩⟩).1.processEvent
      ⟨EventTypeDeleted, ⟨"pod://p1", "", [], [], [], []⟩⟩).1).store.store.lookup "pod://p1"
      = none ∧
    (Tagger.mk ((newTagStore.processEvent
        ⟨EventTypeAdded, ⟨"pod://p1", "h", ["c"], ["b"], ["a"], ["s"]⟩⟩).1.processEvent
      ⟨EventTypeDeleted, ⟨"pod://p1", "", [], [], [], []⟩⟩).1).Tag "pod://p1"
        OrchestratorCardinality = ([], none) :=
  ⟨by decide,
    (getEntity_miss_zero_value
      (Tagger.mk ((newTagStore.processEvent
          ⟨EventTypeAdded, ⟨"pod://p1", "h", ["c"], ["b"], ["a"], ["s"]⟩⟩).1.processEvent
        ⟨EventTypeDeleted, ⟨"pod://p1", "", [], [], [], []⟩⟩).1)
      "pod://p1" OrchestratorCardinality (by decide)).2.1⟩

/-- C4. Delete removes the record: for every store and entity `e`, after
`processEvent(Added, e)` followed by `processEvent(Deleted, e')` with `e'.ID = e.ID`, the
store has no record keyed by `e.ID`: it is exactly the original store without the key
`e.ID`, so its size and its listing are those of the original store without that key,
and (the keys of a store being the IDs of the entities they bind) `listEntities`
returns no entity whose ID is `e.ID`. -/
theorem processEvent_added_deleted_removes (s : tagStore) (e e' : Entity)
    (hid : e'.ID = e.ID) :
    (((s.processEvent ⟨EventTypeAdded, e⟩).1.processEvent ⟨EventTypeDeleted, e'⟩).1.store
      = s.store.erase e.ID) ∧
    (((s.processEvent ⟨EventTypeAdded, e⟩).1.processEvent
        ⟨EventTypeDeleted, e'⟩).1.store.lookup e.ID = none) ∧
    (((s.processEvent ⟨EventTypeAdded, e⟩).1.processEvent ⟨EventTypeDeleted, e'⟩).1.size
      = (tagStore.mk (s.store.erase e.ID)).size) ∧
    (((s.processEvent ⟨EventTypeAdded, e⟩).1.processEvent
        ⟨EventTypeDeleted, e'⟩).1.listEntities
      = (tagStore.mk (s.store.erase e.ID)).listEntities) ∧
    (s.WellKeyed →
      ∀ x ∈ ((s.processEvent ⟨EventTypeAdded, e⟩).1.processEvent
          ⟨EventTypeDeleted, e'⟩).1.listEntities, x.ID ≠ e.ID) := by
  have hstore : ((s.processEvent ⟨EventTypeAdded, e⟩).1.processEvent
      ⟨EventTypeDeleted, e'⟩).1.store = s.store.erase e.ID := by
    rw [tagStore.processEvent_deleted, tagStore.processEvent_upsert _ _ _ (Or.inl rfl), hid]
    exact erase_insert_same s.store e.ID e
  refine ⟨hstore, ?_, ?_, ?_, ?_⟩
  · rw [hstore]
    exact AList.lookup_erase e.ID s.store
  · simp only [tagStore.size, hstore]
  · simp only [tagStore.listEntities, hstore]
  · intro hs x hx hxid
    obtain ⟨k, hk⟩ := (tagStore.mem_listEntities_iff _ x).1 hx
    rw [hstore] at hk
    by_cases hke : k = e.ID
    · subst hke
      rw [AList.lookup_erase] at hk
      exact absurd hk (by simp)
    · rw [AList.lookup_erase_ne hke] at hk
      exact hke ((hs k x hk).symm.trans hxid)

/-- Witness of C4: a store holding two records, one of them an older version of the
deleted ID; the Deleted event carries only the ID. -/
theorem processEvent_added_deleted_removes_witness :
    ((⟨"pod://p1", "", [], [], [], []⟩ : Entity).ID
      = (⟨"pod://p1", "h2", ["c"], ["b"], ["a"], ["s"]⟩ : Entity).ID) ∧
    (applyEvents newTagStore
        [⟨EventTypeAdded, ⟨"pod://p1", "h1", [], [], ["a"], []⟩⟩,
         ⟨EventTypeAdded, ⟨"pod://p2", "g", [], [], ["z"], []⟩⟩]).WellKeyed ∧
    ((((applyEvents newTagStore
          [⟨EventTypeAdded, ⟨"pod://p1", "h1", [], [], ["a"], []⟩⟩,
           ⟨EventTypeAdded, ⟨"pod://p2", "g", [], [], ["z"], []⟩⟩]).processEvent
        ⟨EventTypeAdded, ⟨"pod://p1", "h2", ["c"], ["b"], ["a"], ["s"]⟩⟩).1.processEvent
      ⟨EventTypeDeleted, ⟨"pod://p1", "", [], [], [], []⟩⟩).1.listEntities
      = [⟨"pod://p2", "g", [], [], ["z"], []⟩]) ∧
    (∀ x ∈ (((applyEvents newTagStore
          [⟨EventTypeAdded, ⟨"pod://p1", "h1", [], [], ["a"], []⟩⟩,
           ⟨EventTypeAdded, ⟨"pod://p2", "g", [], [], ["z"], []⟩⟩]).processEvent
        ⟨EventTypeAdded, ⟨"pod://p1", "h2", ["c"], ["b"], ["a"], ["s"]⟩⟩).1.processEvent
      ⟨EventTypeDeleted, ⟨"pod://p1", "", [], [], [], []⟩⟩).1.listEntities,
      x.ID ≠ "pod://p1") :=
  ⟨rfl, tagStore.wellKeyed_applyEvents _ _ tagStore.wellKeyed_new, by decide,
    (processEvent_added_deleted_removes
      (applyEvents newTagStore
        [⟨EventTypeAdded, ⟨"pod://p1", "h1", [], [], ["a"], []⟩⟩,
         ⟨EventTypeAdded, ⟨"pod://p2", "g", [], [], ["z"], []⟩⟩])
      ⟨"pod://p1", "h2", ["c"], ["b"], ["a"], ["s"]⟩
      ⟨"pod://p1", "", [], [], [], []⟩ rfl).2.2.2.2
      (tagStore.wellKeyed_applyEvents _ _ tagStore.wellKeyed_new)⟩

/-- C5. Tier resolution: for every entity `e`, `GetTags e Low` is the Low list,
`GetTags e Orchestrator` is Low ++ Orchestrator and `GetTags e High` is
Low ++ Orchestrator ++ High, as list concatenation that keeps every element, duplicate
and order. -/
theorem GetTags_tier_resolution (e : Entity) :
    e.GetTags LowCardinality = e.LowCardinalityTags ∧
    e.GetTags OrchestratorCardinality
      = e.LowCardinalityTags ++ e.OrchestratorCardinalityTags ∧
    e.GetTags HighCardinality
      = e.LowCardinalityTags ++ e.OrchestratorCardinalityTags ++ e.HighCardinalityTags :=
  ⟨Entity.GetTags_low e, Entity.GetTags_orchestrator e, Entity.GetTags_high e⟩

/-- C6. Tier monotonicity: for every entity `e`, `GetTags e Low` is a list prefix of
`GetTags e Orchestrator`, which is a list prefix of `GetTags e High`; consequently the
lengths are ordered the same way. -/
theorem GetTags_tier_monotone (e : Entity) :
    e.GetTags LowCardinality <+: e.GetTags OrchestratorCardinality ∧
    e.GetTags OrchestratorCardinality <+: e.GetTags HighCardinality ∧
    (e.GetTags LowCardinality).length ≤ (e.GetTags OrchestratorCardinality).length ∧
    (e.GetTags OrchestratorCardinality).length ≤ (e.GetTags HighCardinality).length := by
  have h1 : e.GetTags LowCardinality <+: e.GetTags OrchestratorCardinality := by
    rw [Entity.GetTags_low, Entity.GetTags_orchestrator]
    exact List.prefix_append _ _
  have h2 : e.GetTags OrchestratorCardinality <+: e.GetTags HighCardinality := by
    rw [Entity.GetTags_orchestrator, Entity.GetTags_high]
    exact List.prefix_append _ _
  exact ⟨h1, h2, h1.length_le, h2.length_le⟩

/-- C7 fails on the code: `Tagger.List` never reads its `cardinality` argument and
resolves every entity at `HighCardinality`. On a store holding one entity with one tag
per tier, `List(LowCardinality)` reports all three tags, whereas `GetTags` at
`LowCardinality` (what `Tagger.Tag` returns for the same ID and tier) is the Low tag
alone. -/
theorem Tagger_List_resolves_at_high_only :
    (∀ (t : Tagger) (cardinality : TagCardinality),
      t.List cardinality = t.List HighCardinality) ∧
    ((Tagger.mk (newTagStore.processEvent
        ⟨EventTypeAdded, ⟨"container://abc", "h", ["container_id:abc"], ["pod_name:x"],
          ["env:prod"], []⟩⟩).1).List LowCardinality).Entities.lookup "container://abc"
      = some ⟨["env:prod", "pod_name:x", "container_id:abc"]⟩ ∧
    (⟨"container://abc", "h", ["container_id:abc"], ["pod_name:x"], ["env:prod"], []⟩ :
        Entity).GetTags LowCardinality = ["env:prod"] ∧
    (Tagger.mk (newTagStore.processEvent
        ⟨EventTypeAdded, ⟨"container://abc", "h", ["container_id:abc"], ["pod_name:x"],
          ["env:prod"], []⟩⟩).1).Tag "container://abc" LowCardinality
      = (["env:prod"], none) :=
  ⟨fun _ _ => rfl, by decide, by decide, by decide⟩

/-- C8. List completeness: for every sequence of Added events whose entity IDs are
pairwise distinct, applying them with `processEvent` to a store created by `newTagStore`
makes `listEntities` return exactly as many entities as were added, one equal to each
added entity, and `Tagger.List` (at any cardinality) return a map whose keys are exactly
the added IDs. -/
theorem list_completeness (es : List Entity) (cardinality : TagCardinality)
    (hnd : (es.map Entity.ID).Nodup) :
    (applyEvents newTagStore (es.map addedEvent)).listEntities.length = es.length ∧
    (applyEvents newTagStore (es.map addedEvent)).listEntities.Perm es ∧
    ((Tagger.mk (applyEvents newTagStore (es.map addedEvent))).List
        cardinality).Entities.keys.Perm (es.map Entity.ID) ∧
    ((Tagger.mk (applyEvents newTagStore (es.map addedEvent))).List
        cardinality).Entities.keys.length = es.length := by
  have hlist : (applyEvents newTagStore (es.map addedEvent)).listEntities = es.reverse := by
    rw [tagStore.listEntities_eq_map, applyEvents_added_store,
      foldl_insert_entries (fun e => e) es newTagStore.store hnd
        (fun e _ => AList.not_mem_empty e.ID)]
    simp [newTagStore, Function.comp_def]
  have hkeys : ((Tagger.mk (applyEvents newTagStore (es.map addedEvent))).List
      cardinality).Entities.keys = es.map Entity.ID := by
    have hnd' : (es.reverse.map Entity.ID).Nodup := by
      rw [List.map_reverse]
      exact List.nodup_reverse.2 hnd
    rw [Tagger.List_entities]
    dsimp only
    rw [hlist, AList.keys,
      foldl_insert_entries (fun e => TaggerListEntity.mk (e.GetTags HighCardinality))
        es.reverse ∅ hnd' (fun e _ => AList.not_mem_empty e.ID)]
    simp [List.keys, Function.comp_def]
  refine ⟨?_, ?_, ?_, ?_⟩
  · rw [hlist, List.length_reverse]
  · rw [hlist]
    exact List.reverse_perm es
  · rw [hkeys]
  · rw [hkeys, List.length_map]

/-- Witness of C8: three entities with distinct IDs. -/
theorem list_completeness_witness :
    (([⟨"container://a", "1", ["h"], ["o"], ["l"], []⟩,
        ⟨"container://b", "2", [], [], ["l"], ["s"]⟩,
        ⟨"pod://a", "3", [], [], [], []⟩] : List Entity).map Entity.ID).Nodup ∧
    (applyEvents newTagStore
      (([⟨"container://a", "1", ["h"], ["o"], ["l"], []⟩,
        ⟨"container://b", "2", [], [], ["l"], ["s"]⟩,
        ⟨"pod://a", "3", [], [], [], []⟩] : List Entity).map addedEvent)).listEntities.length
      = 3 :=
  ⟨by decide,
    (list_completeness
      [⟨"container://a", "1", ["h"], ["o"], ["l"], []⟩,
        ⟨"container://b", "2", [], [], ["l"], ["s"]⟩,
        ⟨"pod://a", "3", [], [], [], []⟩] LowCardinality (by decide)).1⟩

/-- C9. Latest version survives: for every finite sequence of events applied in order
with `processEvent` to a store created by `newTagStore`, and for every ID `x`: if the
last event whose entity ID is `x` has type Added or Modified then `getEntity x` returns
exactly that event's entity (and the store binds `x` to it), and if that last event has
type Deleted, or no event mentions `x`, the store holds no record for `x`. -/
theorem latest_version_survives (events : List EntityEvent) (x : String) :
    (∀ ev, lastEventFor x events = some ev →
      (ev.EventType = EventTypeAdded ∨ ev.EventType = EventTypeModified) →
      (applyEvents newTagStore events).getEntity x = (ev.Entity, none) ∧
      (applyEvents newTagStore events).store.lookup x = some ev.Entity) ∧
    (∀ ev, lastEventFor x events = some ev → ev.EventType = EventTypeDeleted →
      (applyEvents newTagStore events).store.lookup x = none) ∧
    (lastEventFor x events = none →
      (applyEvents newTagStore events).store.lookup x = none) := by
  have key : (∀ ev, lastEventFor x events = some ev →
      (ev.EventType = EventTypeAdded ∨ ev.EventType = EventTypeModified) →
      (applyEvents newTagStore events).store.lookup x = some ev.Entity) ∧
    (∀ ev, lastEventFor x events = some ev → ev.EventType = EventTypeDeleted →
      (applyEvents newTagStore events).store.lookup x = none) ∧
    (lastEventFor x events = none →
      (applyEvents newTagStore events).store.lookup x = none) := by
    induction events using List.reverseRecOn with
    | nil =>
      refine ⟨?_, ?_, ?_⟩
      · intro ev h
        simp [lastEventFor] at h
      · intro ev h
        simp [lastEventFor] at h
      · intro _
        exact AList.lookup_empty x
    | append_singleton l a ih =>
      rw [applyEvents_snoc]
      by_cases ha : a.Entity.ID = x
      · rw [lastEventFor_snoc_eq x l a ha]
        refine ⟨?_, ?_, ?_⟩
        · intro ev hev hty
          cases Option.some.inj hev
          rw [tagStore.processEvent_upsert _ a.EventType a.Entity hty, ← ha]
          exact AList.lookup_insert _
        · intro ev hev hty
          cases Option.some.inj hev
          have hdel := tagStore.processEvent_deleted (applyEvents newTagStore l) a.Entity
          rw [← hty] at hdel
          rw [hdel, ← ha]
          exact AList.lookup_erase _ _
        · intro h
          exact absurd h (by simp)
      · rw [lastEventFor_snoc_ne x l a ha,
          tagStore.lookup_processEvent_of_ne _ a x (fun h => ha h.symm)]
        exact ih
  refine ⟨?_, key.2.1, key.2.2⟩
  intro ev hev hty
  have hl := key.1 ev hev hty
  exact ⟨tagStore.getEntity_of_lookup_some _ x ev.Entity hl, hl⟩

/-- Witness of C9: an ID that is added, deleted, and added again with other tags, with
events for another ID and an event of an undeclared type in between. -/
theorem latest_version_survives_witness :
    lastEventFor "pod://p1"
        [⟨EventTypeAdded, ⟨"pod://p1", "1", [], [], ["a"], []⟩⟩,
         ⟨EventTypeAdded, ⟨"pod://p2", "1", [], [], ["z"], []⟩⟩,
         ⟨EventTypeDeleted, ⟨"pod://p1", "", [], [], [], []⟩⟩,
         ⟨7, ⟨"pod://p2", "9", [], [], [], []⟩⟩,
         ⟨EventTypeModified, ⟨"pod://p1", "2", ["c"], [], ["b"], []⟩⟩,
         ⟨EventTypeDeleted, ⟨"pod://p2", "", [], [], [], []⟩⟩]
      = some ⟨EventTypeModified, ⟨"pod://p1", "2", ["c"], [], ["b"], []⟩⟩ ∧
    (applyEvents newTagStore
        [⟨EventTypeAdded, ⟨"pod://p1", "1", [], [], ["a"], []⟩⟩,
         ⟨EventTypeAdded, ⟨"pod://p2", "1", [], [], ["z"], []⟩⟩,
         ⟨EventTypeDeleted, ⟨"pod://p1", "", [], [], [], []⟩⟩,
         ⟨7, ⟨"pod://p2", "9", [], [], [], []⟩⟩,
         ⟨EventTypeModified, ⟨"pod://p1", "2", ["c"], [], ["b"], []⟩⟩,
         ⟨EventTypeDeleted, ⟨"pod://p2", "", [], [], [], []⟩⟩]).getEntity "pod://p1"
      = (⟨"pod://p1", "2", ["c"], [], ["b"], []⟩, none) :=
  ⟨by decide,
    ((latest_version_survives
      [⟨EventTypeAdded, ⟨"pod://p1", "1", [], [], ["a"], []⟩⟩,
       ⟨EventTypeAdded, ⟨"pod://p2", "1", [], [], ["z"], []⟩⟩,
       ⟨EventTypeDeleted, ⟨"pod://p1", "", [], [], [], []⟩⟩,
       ⟨7, ⟨"pod://p2", "9", [], [], [], []⟩⟩,
       ⟨EventTypeModified, ⟨"pod://p1", "2", ["c"], [], ["b"], []⟩⟩,
       ⟨EventTypeDeleted, ⟨"pod://p2", "", [], [], [], []⟩⟩] "pod://p1").1
      ⟨EventTypeModified, ⟨"pod://p1", "2", ["c"], [], ["b"], []⟩⟩ (by decide)
      (Or.inr rfl)).1⟩

/-- C10. Unknown event types are a no-op in the store: for every store `s` and every
event whose `EventType` is none of `EventTypeAdded`, `EventTypeModified`,
`EventTypeDeleted`, `processEvent` returns a nil error and leaves the store exactly as it
was; and `processEvent` returns a nil error for every event of every type. -/
theorem processEvent_unknown_type_noop (s : tagStore) (ev : EntityEvent) :
    (ev.EventType ≠ EventTypeAdded → ev.EventType ≠ EventTypeModified →
      ev.EventType ≠ EventTypeDeleted → s.processEvent ev = (s, none)) ∧
    (s.processEvent ev).2 = none := by
  refine ⟨?_, rfl⟩
  intro h0 h1 h2
  have h := tagStore.processEvent_other s ev.EventType ev.Entity h0 h1 h2
  exact Prod.ext h rfl

/-- Witness of C10: an event of type 3 (the first undeclared value) on a store holding
a record for the same ID, and an event of a negative type. -/
theorem processEvent_unknown_type_noop_witness :
    ((3 : EventType) ≠ EventTypeAdded ∧ (3 : EventType) ≠ EventTypeModified ∧
      (3 : EventType) ≠ EventTypeDeleted) ∧
    ((newTagStore.processEvent
        ⟨EventTypeAdded, ⟨"pod://p1", "1", [], [], ["a"], []⟩⟩).1.processEvent
      ⟨3, ⟨"pod://p1", "2", [], [], ["b"], []⟩⟩
      = ((newTagStore.processEvent
          ⟨EventTypeAdded, ⟨"pod://p1", "1", [], [], ["a"], []⟩⟩).1, none)) :=
  ⟨by decide,
    (processEvent_unknown_type_noop
      (newTagStore.processEvent ⟨EventTypeAdded, ⟨"pod://p1", "1", [], [], ["a"], []⟩⟩).1
      ⟨3, ⟨"pod://p1", "2", [], [], ["b"], []⟩⟩).1 (by decide) (by decide) (by decide)⟩

/-- C11, as the claim states it, fails: a wire message of type 3 (none of ADDED,
MODIFIED, DELETED) is decoded as an Added event, and applying it to the empty store
creates a record for the carried entity. -/
theorem unknown_wire_type_changes_store :
    ((3 : pb.EventType) ≠ pb.EventType_ADDED ∧ (3 : pb.EventType) ≠ pb.EventType_MODIFIED ∧
      (3 : pb.EventType) ≠ pb.EventType_DELETED) ∧
    decodeResponse ⟨3, some ⟨some ⟨"container", "abc"⟩, "h", [], [], ["env:prod"], []⟩⟩
      = some ⟨EventTypeAdded, ⟨"container://abc", "h", [], [], ["env:prod"], []⟩⟩ ∧
    newTagStore.store.lookup "container://abc" = none ∧
    (newTagStore.processEvent
        ⟨convertEventType 3, ⟨"container://abc", "h", [], [], ["env:prod"], []⟩⟩).1.store.lookup
        "container://abc"
      = some ⟨"container://abc", "h", [], [], ["env:prod"], []⟩ := by
  decide

/-- C11, amended. For every wire message whose type is not ADDED, MODIFIED or DELETED,
`convertEventType` decodes the type as `EventTypeAdded`, and applying the resulting
event with `processEvent` upserts the carried entity, for every store and every entity:
the store becomes the old one with the entity bound to its ID, and `getEntity` of that
ID returns the entity. -/
theorem unknown_wire_type_upserts (s : tagStore) (t : pb.EventType) (e : Entity)
    (h0 : t ≠ pb.EventType_ADDED) (h1 : t ≠ pb.EventType_MODIFIED)
    (h2 : t ≠ pb.EventType_DELETED) :
    convertEventType t = EventTypeAdded ∧
    (s.processEvent ⟨convertEventType t, e⟩).1.store = s.store.insert e.ID e ∧
    (s.processEvent ⟨convertEventType t, e⟩).1.getEntity e.ID = (e, none) := by
  have hc := convertEventType_unknown t h0 h1 h2
  have hs := tagStore.processEvent_upsert s (convertEventType t) e (Or.inl hc)
  refine ⟨hc, hs, ?_⟩
  apply tagStore.getEntity_of_lookup_some
  rw [hs]
  exact AList.lookup_insert s.store

/-- Witness of the amended C11: wire type 7 on a store that holds another version of
the carried ID. -/
theorem unknown_wire_type_upserts_witness :
    ((7 : pb.EventType) ≠ pb.EventType_ADDED ∧ (7 : pb.EventType) ≠ pb.EventType_MODIFIED ∧
      (7 : pb.EventType) ≠ pb.EventType_DELETED) ∧
    ((newTagStore.processEvent
          ⟨EventTypeAdded, ⟨"pod://p1", "1", [], [], ["a"], []⟩⟩).1.processEvent
        ⟨convertEventType 7, ⟨"pod://p1", "2", [], [], ["b"], []⟩⟩).1.getEntity "pod://p1"
      = (⟨"pod://p1", "2", [], [], ["b"], []⟩, none) :=
  ⟨by decide,
    (unknown_wire_type_upserts
      (newTagStore.processEvent ⟨EventTypeAdded, ⟨"pod://p1", "1", [], [], ["a"], []⟩⟩).1
      7 ⟨"pod://p1", "2", [], [], ["b"], []⟩ (by decide) (by decide) (by decide)).2.2⟩

/-- C12. Apply is idempotent: for every store `s` and every event `ev` of any type,
applying `processEvent ev` twice in succession yields the same store as applying it
once (and both calls return a nil error). -/
theorem processEvent_idempotent (s : tagStore) (ev : EntityEvent) :
    (s.processEvent ev).1.processEvent ev = s.processEvent ev := by
  refine Prod.ext ?_ rfl
  obtain ⟨t, e⟩ := ev
  by_cases h01 : t = EventTypeAdded ∨ t = EventTypeModified
  · apply tagStore.eq_of_store_eq
    rw [tagStore.processEvent_upsert _ t e h01, tagStore.processEvent_upsert _ t e h01]
    exact AList.insert_insert s.store
  · by_cases h2 : t = EventTypeDeleted
    · subst h2
      apply tagStore.eq_of_store_eq
      rw [tagStore.processEvent_deleted, tagStore.processEvent_deleted]
      exact erase_erase_same s.store e.ID
    · have hne : t ≠ EventTypeAdded ∧ t ≠ EventTypeModified := not_or.1 h01
      rw [tagStore.processEvent_other s t e hne.1 hne.2 h2,
        tagStore.processEvent_other s t e hne.1 hne.2 h2]

/-- C13. At most one record per ID: in every store reachable from `newTagStore` by any
sequence of `processEvent` calls, every map key is bound to an entity whose `ID` field
equals the key, so `listEntities` never returns two entities with the same ID. -/
theorem reachable_store_one_record_per_ID (events : List EntityEvent) :
    (applyEvents newTagStore events).WellKeyed ∧
    ((applyEvents newTagStore events).listEntities.map Entity.ID).Nodup := by
  have hwk := tagStore.wellKeyed_applyEvents events newTagStore tagStore.wellKeyed_new
  refine ⟨hwk, ?_⟩
  have hkeys : (applyEvents newTagStore events).listEntities.map Entity.ID
      = (applyEvents newTagStore events).store.keys := by
    rw [tagStore.listEntities_eq_map, List.map_map, AList.keys, List.keys]
    apply List.map_congr_left
    intro kv hkv
    exact hwk kv.1 kv.2 (AList.mem_lookup_iff.2 hkv)
  rw [hkeys]
  exact AList.keys_nodup _

/-- C14. Standard accessor: for every store and entity `e`, after
`processEvent(Added or Modified, e)`, `Tagger.Standard e.ID` returns exactly
`e.StandardTags` with a nil error, and for every tier the result of `Tagger.Tag e.ID` is
`GetTags e` at that tier, which does not depend on `e.StandardTags`. -/
theorem standard_accessor (s : tagStore) (e : Entity) (t : EventType)
    (cardinality : TagCardinality) (standard : List String)
    (ht : t = EventTypeAdded ∨ t = EventTypeModified) :
    (Tagger.mk (s.processEvent ⟨t, e⟩).1).Standard e.ID = (e.StandardTags, none) ∧
    (Tagger.mk (s.processEvent ⟨t, e⟩).1).Tag e.ID cardinality
      = (e.GetTags cardinality, none) ∧
    ({ e with StandardTags := standard } : Entity).GetTags cardinality
      = e.GetTags cardinality := by
  have hget : (s.processEvent ⟨t, e⟩).1.getEntity e.ID = (e, none) := by
    apply tagStore.getEntity_of_lookup_some
    rw [tagStore.processEvent_upsert s t e ht]
    exact AList.lookup_insert s.store
  refine ⟨?_, ?_, rfl⟩
  · simp only [Tagger.Standard, hget]
  · simp only [Tagger.Tag, hget]

/-- Witness of C14: the standard tags differ from every tier list. -/
theorem standard_accessor_witness :
    (EventTypeAdded = EventTypeAdded ∨ EventTypeAdded = EventTypeModified) ∧
    (Tagger.mk (newTagStore.processEvent
        ⟨EventTypeAdded, ⟨"container://abc", "h", ["container_id:abc"], ["pod_name:x"],
          ["env:prod"], ["service:web", "version:1"]⟩⟩).1).Standard "container://abc"
      = (["service:web", "version:1"], none) :=
  ⟨Or.inl rfl,
    (standard_accessor newTagStore
      ⟨"container://abc", "h", ["container_id:abc"], ["pod_name:x"], ["env:prod"],
        ["service:web", "version:1"]⟩
      EventTypeAdded HighCardinality [] (Or.inl rfl)).1⟩

/-- C15. Entity ID derivation: for every wire entity id (a non-nil id),
`convertEntityID` returns prefix ++ "://" ++ uid, and this is the key under which the
receive loop stores the decoded entity: one pass of the loop (of a tagger that holds a
stream) on a message carrying that id goes on to the next receive with the decoded
entity bound to that key (the key is removed when the message type is DELETED) and
every other key untouched. -/
theorem convertEntityID_is_store_key (id : pb.EntityId) :
    convertEntityID (some id) = some (id.Prefix ++ "://" ++ id.Uid) ∧
    ∀ (t : TaggerState) (sel : SelectCase) (resp : pb.StreamTagsResponse) (ent : pb.Entity)
      (done : Bool) (rpc : Option Nat × error) (cur : Nat),
      resp.Entity = some ent → ent.Id = some id → sel ≠ SelectCase.done →
      t.stream = some cur →
      ∃ t', t.runIteration sel (RecvResult.message resp) done rpc = IterationResult.next t' ∧
        (resp.Type_ ≠ pb.EventType_DELETED →
          t'.store.store.lookup (id.Prefix ++ "://" ++ id.Uid)
            = some ⟨id.Prefix ++ "://" ++ id.Uid, ent.Hash, ent.HighCardinalityTags,
                ent.OrchestratorCardinalityTags, ent.LowCardinalityTags, ent.StandardTags⟩) ∧
        (resp.Type_ = pb.EventType_DELETED →
          t'.store.store.lookup (id.Prefix ++ "://" ++ id.Uid) = none) ∧
        (∀ k, k ≠ id.Prefix ++ "://" ++ id.Uid →
          t'.store.store.lookup k = t.store.store.lookup k) := by
  refine ⟨rfl, ?_⟩
  intro t sel resp ent done rpc cur hent hid hsel hcur
  have hdec := decodeResponse_of_some resp ent id hent hid
  refine ⟨_, TaggerState.runIteration_message t sel resp _ done rpc cur hsel hcur hdec,
    ?_, ?_, ?_⟩
  · intro hty
    show (t.store.processEvent _).1.store.lookup _ = _
    rw [tagStore.processEvent_upsert _ _ _ (convertEventType_upsert_of_ne_deleted _ hty)]
    exact AList.lookup_insert _
  · intro hty
    show (t.store.processEvent _).1.store.lookup _ = _
    rw [hty, convertEventType_deleted, tagStore.processEvent_deleted]
    exact AList.lookup_erase _ _
  · intro k hk
    exact tagStore.lookup_processEvent_of_ne t.store _ k hk

/-- Witness of C15: a MODIFIED message for `container://abc` received by a tagger
after `Init`, holding the stream 5. -/
theorem convertEntityID_is_store_key_witness :
    convertEntityID (some ⟨"container", "abc"⟩) = some "container://abc" ∧
    ∃ t', { (NewTaggerState.Init (some 1, none)).1 with stream := some 5 }.runIteration
        SelectCase.default
        (RecvResult.message
          ⟨pb.EventType_MODIFIED, some ⟨some ⟨"container", "abc"⟩, "h", [], [], ["env:prod"], []⟩⟩)
        false (none, none) = IterationResult.next t' ∧
      t'.store.store.lookup "container://abc"
        = some ⟨"container://abc", "h", [], [], ["env:prod"], []⟩ :=
  ⟨(convertEntityID_is_store_key ⟨"container", "abc"⟩).1,
    ((convertEntityID_is_store_key ⟨"container", "abc"⟩).2
      { (NewTaggerState.Init (some 1, none)).1 with stream := some 5 }
      SelectCase.default
      ⟨pb.EventType_MODIFIED, some ⟨some ⟨"container", "abc"⟩, "h", [], [], ["env:prod"], []⟩⟩
      ⟨some ⟨"container", "abc"⟩, "h", [], [], ["env:prod"], []⟩ false (none, none) 5
      rfl rfl (by decide) rfl).imp
      (fun _ h => ⟨h.1, h.2.1 (by decide)⟩)⟩

/-- C16 fails on the code: when `Recv` on the current stream returns `io.EOF` and the
following `startTaggerStream` call succeeds (the context is not done and the stream
request returns a new stream and a nil error), the pass through the loop ends in
`panic("whoops: %!s(<nil>)")`, whatever the rest of the tagger's state, instead of going
on to the next receive. -/
theorem run_panics_after_clean_end_of_stream (t : TaggerState) (client cur new : Nat) :
    ({ t with client := some client, stream := some cur }.startTaggerStream false
        (some new, none)).map Prod.snd = some none ∧
    ({ t with client := some client, stream := some cur }.startTaggerStream false
        (some new, none)).map (fun r : TaggerState × error => r.1.stream)
      = some (some new) ∧
    { t with client := some client, stream := some cur }.runIteration SelectCase.default
        RecvResult.eof false (some new, none)
      = IterationResult.panicked "whoops: %!s(<nil>)" ∧
    { t with client := some client, stream := some cur }.runIteration SelectCase.health
        RecvResult.eof false (some new, none)
      = IterationResult.panicked "whoops: %!s(<nil>)" :=
  ⟨rfl, rfl, rfl, rfl⟩

/-- C17 fails on the code: `Init` stores the dialed connection only inside the client
and never assigns the `conn` field, so after a successful `Init` on a new tagger `conn`
is still nil; `Stop` then calls `Close` on that nil connection and panics instead of
returning, and the dialed connection is never closed.  Had `conn` held the dialed
connection, `Stop` would have closed it and returned what `Close` returns. -/
theorem Init_leaves_conn_unset (c : Nat) (close : error) :
    (∀ (t : TaggerState) (dial : Option Nat × error), (t.Init dial).1.conn = t.conn) ∧
    (NewTaggerState.Init (some c, none)).2 = none ∧
    (NewTaggerState.Init (some c, none)).1.client = some c ∧
    (NewTaggerState.Init (some c, none)).1.conn = none ∧
    (NewTaggerState.Init (some c, none)).1.Stop close
      = StopResult.panicked nilDereference ∧
    { (NewTaggerState.Init (some c, none)).1 with conn := some c }.Stop close
      = StopResult.returned
          { (NewTaggerState.Init (some c, none)).1 with conn := some c, ctx := some true }
          c close := by
  refine ⟨?_, rfl, rfl, rfl, rfl, ?_⟩
  · intro t dial
    obtain ⟨conn, err⟩ := dial
    cases err <;> rfl
  · cases close <;> rfl

end remote

/-- C18. Hash permutation invariance: for every list of tag strings and every
permutation of it, `computeTagsHash` of the list equals `computeTagsHash` of the
permuted list (whatever the digest function applied to the sorted tags). -/
theorem computeTagsHash_perm_invariant (digest : List String → String)
    (tags tags' : List String) (hperm : tags.Perm tags') :
    computeTagsHash digest tags = computeTagsHash digest tags' := by
  unfold computeTagsHash
  rw [remote.sorted_tags_of_perm tags tags' hperm]

/-- Witness of C18: two of the tags of `TestDigest`, swapped, under a digest that
concatenates the sorted tags. -/
theorem computeTagsHash_perm_invariant_witness :
    (["high2:b", "high1:a"] : List String).Perm ["high1:a", "high2:b"] ∧
    computeTagsHash String.join ["high2:b", "high1:a"]
      = computeTagsHash String.join ["high1:a", "high2:b"] :=
  ⟨List.Perm.swap _ _ _,
    computeTagsHash_perm_invariant String.join ["high2:b", "high1:a"] ["high1:a", "high2:b"]
      (List.Perm.swap _ _ _)⟩

namespace remote

open collectors types response

/-- C19. Frame of Apply: for every store `s`, every event `ev` of any type and every ID
`y` different from `ev.Entity.ID`, `processEvent ev` leaves the record for `y`
unchanged: `y` is present after the call iff it was present before, and `getEntity y`
returns the same entity before and after. -/
theorem processEvent_frame (s : tagStore) (ev : EntityEvent) (y : String)
    (hy : y ≠ ev.Entity.ID) :
    (s.processEvent ev).1.store.lookup y = s.store.lookup y ∧
    (y ∈ (s.processEvent ev).1.store ↔ y ∈ s.store) ∧
    (s.processEvent ev).1.getEntity y = s.getEntity y := by
  have hl := tagStore.lookup_processEvent_of_ne s ev y hy
  refine ⟨hl, ?_, ?_⟩
  · rw [← AList.lookup_isSome, ← AList.lookup_isSome, hl]
  · simp only [tagStore.getEntity, hl]

/-- Witness of C19: deleting `pod://p1` leaves the record of `pod://p2` as it was. -/
theorem processEvent_frame_witness :
    ("pod://p2" ≠ (⟨EventTypeDeleted, ⟨"pod://p1", "", [], [], [], []⟩⟩ : EntityEvent).Entity.ID) ∧
    ((applyEvents newTagStore
        [⟨EventTypeAdded, ⟨"pod://p1", "1", [], [], ["a"], []⟩⟩,
         ⟨EventTypeAdded, ⟨"pod://p2", "2", [], [], ["z"], []⟩⟩]).processEvent
      ⟨EventTypeDeleted, ⟨"pod://p1", "", [], [], [], []⟩⟩).1.getEntity "pod://p2"
      = (⟨"pod://p2", "2", [], [], ["z"], []⟩, none) :=
  ⟨by decide,
    (processEvent_frame
      (applyEvents newTagStore
        [⟨EventTypeAdded, ⟨"pod://p1", "1", [], [], ["a"], []⟩⟩,
         ⟨EventTypeAdded, ⟨"pod://p2", "2", [], [], ["z"], []⟩⟩])
      ⟨EventTypeDeleted, ⟨"pod://p1", "", [], [], [], []⟩⟩ "pod://p2" (by decide)).2.2.trans
      (by decide)⟩

/-- C20. Entity IDs do not collide for well-formed prefixes: for all wire ids whose
prefixes do not contain the substring `://`, equal results of `convertEntityID` imply
equal prefixes and equal uids; so for two distinct such ids, applying an event (of any
type) whose entity ID is derived from one of them leaves the record stored under the
other's ID unchanged. -/
theorem convertEntityID_no_collision (id1 id2 : pb.EntityId)
    (h1 : ¬ "://".toList <:+: id1.Prefix.toList)
    (h2 : ¬ "://".toList <:+: id2.Prefix.toList) :
    (convertEntityID (some id1) = convertEntityID (some id2) →
      id1.Prefix = id2.Prefix ∧ id1.Uid = id2.Uid) ∧
    (id1 ≠ id2 →
      ∀ (s : tagStore) (ev : EntityEvent),
        some ev.Entity.ID = convertEntityID (some id2) →
        (s.processEvent ev).1.store.lookup (id1.Prefix ++ "://" ++ id1.Uid)
          = s.store.lookup (id1.Prefix ++ "://" ++ id1.Uid)) := by
  constructor
  · intro h
    have hid := convertEntityID_some_inj id1 id2 h1 h2 h
    rw [hid]
    exact ⟨rfl, rfl⟩
  · intro hne s ev hev
    apply tagStore.lookup_processEvent_of_ne
    intro hkey
    apply hne
    apply convertEntityID_some_inj id1 id2 h1 h2
    rw [← hev, ← hkey]
    rfl

/-- Witness of C20: the ids (`container`, `abc`) and (`container`, `abd`); an Added
event for the second leaves the record of the first as it was. -/
theorem convertEntityID_no_collision_witness :
    (¬ "://".toList <:+: (⟨"container", "abc"⟩ : pb.EntityId).Prefix.toList) ∧
    (¬ "://".toList <:+: (⟨"container", "abd"⟩ : pb.EntityId).Prefix.toList) ∧
    ((⟨"container", "abc"⟩ : pb.EntityId) ≠ ⟨"container", "abd"⟩) ∧
    ((newTagStore.processEvent
          ⟨EventTypeAdded, ⟨"container://abc", "1", [], [], ["a"], []⟩⟩).1.processEvent
        ⟨EventTypeAdded, ⟨"container://abd", "2", [], [], ["b"], []⟩⟩).1.store.lookup
        "container://abc"
      = (newTagStore.processEvent
          ⟨EventTypeAdded, ⟨"container://abc", "1", [], [], ["a"], []⟩⟩).1.store.lookup
        "container://abc" :=
  ⟨by decide, by decide, by decide,
    (convertEntityID_no_collision ⟨"container", "abc"⟩ ⟨"container", "abd"⟩
      (by decide) (by decide)).2 (by decide)
      (newTagStore.processEvent
        ⟨EventTypeAdded, ⟨"container://abc", "1", [], [], ["a"], []⟩⟩).1
      ⟨EventTypeAdded, ⟨"container://abd", "2", [], [], ["b"], []⟩⟩ rfl⟩

end remote
